import Mathlib

/-!
Verification of the PDF processing pipeline against its specification.

The definitions below shallowly embed the Python sources of the repository:
`format_detector.py`, `classifier.py`, `text_extractor.py`, `ocr_processor.py`,
`elasticsearch_indexer.py`, `pipeline_processor.py`, `file_monitor.py`,
`database.py` and `config.py`.  External collaborators (PyMuPDF, pdfminer,
Tesseract, scikit-learn, Elasticsearch, SQLAlchemy) are modelled as oracles:
each call either returns a value or raises a Python exception, encoded with
`Except String`.  Floating point arithmetic of the source is modelled with `ℚ`.
-/

namespace Pipeline

/-- `Config.PROCESSED_EXTENSION` from `config.py`. -/
def PROCESSED_EXTENSION : String := ".processed"

/-! ## FormatDetector (`format_detector.py`) -/

/-- Per-page raw signals read by `FormatDetector.detect_format`:
`textLen` is `len(page.get_text().strip())`, `pageArea` is
`rect.width * rect.height`, and `imageArea` is the summed `width * height`
over `page.get_images()`. -/
structure PageData where
  textLen : Nat
  pageArea : ℚ
  imageArea : Nat
deriving DecidableEq

/-- `text_score = min(text_length / self.text_threshold, 1.0)`
(format_detector.py line 77); `T` is the constructor's `text_threshold`. -/
def pageTextScore (T : ℚ) (p : PageData) : ℚ :=
  min ((p.textLen : ℚ) / T) 1

/-- `image_ratio = total_image_area / page_area if page_area > 0 else 0;`
`image_score = min(image_ratio / self.image_ratio_threshold, 1.0)`
(format_detector.py lines 78-79); `R` is the constructor's
`image_ratio_threshold`. -/
def pageImageScore (R : ℚ) (p : PageData) : ℚ :=
  min ((if 0 < p.pageArea then (p.imageArea : ℚ) / p.pageArea else 0) / R) 1

/-- The dict returned by `FormatDetector.detect_format`, restricted to the
`type` and `confidence` entries. -/
structure FormatResult where
  typ : String
  confidence : ℚ
deriving DecidableEq

/-- Average of a list of rationals, `sum(scores) / len(scores)`. -/
def avgQ (l : List ℚ) : ℚ := l.sum / (l.length : ℚ)

/-- The decision cascade of `detect_format` (format_detector.py lines 91-102),
as a function of the two page-score averages. -/
def decideFormat (avgText avgImage : ℚ) : FormatResult :=
  if avgText > 1/2 ∧ avgImage < 3/10 then ⟨"machine_readable", avgText⟩
  else if avgImage > 1/2 ∧ avgText < 1/5 then ⟨"scanned", avgImage⟩
  else if avgText > avgImage then ⟨"machine_readable", avgText * (7/10)⟩
  else ⟨"scanned", avgImage * (7/10)⟩

/-- `FormatDetector.detect_format` (format_detector.py lines 23-127).
The `doc` argument models `fitz.open(pdf_path)` together with the per-page
analysis loop: `.error` is a raised exception anywhere in the `try:` block
(caught, yielding `unknown`), `.ok pages` is the list of per-page signals.
The loop analyzes `min(3, total_pages)` pages, i.e. `pages.take 3`. -/
def detect_format (T R : ℚ) (doc : Except String (List PageData)) : FormatResult :=
  match doc with
  | .error _ => ⟨"unknown", 0⟩
  | .ok pages =>
    if pages.length = 0 then ⟨"unknown", 0⟩
    else
      let analyzed := pages.take 3
      decideFormat (avgQ (analyzed.map (pageTextScore T)))
        (avgQ (analyzed.map (pageImageScore R)))

/-! ### Helper lemmas for the format detector -/

lemma listSum_nonneg (l : List ℚ) (h : ∀ x ∈ l, 0 ≤ x) : 0 ≤ l.sum := by
  induction l with
  | nil => simp
  | cons a t ih =>
    simp only [List.sum_cons]
    have := h a (by simp)
    have := ih (fun x hx => h x (by simp [hx]))
    linarith

lemma listSum_le_length (l : List ℚ) (h : ∀ x ∈ l, x ≤ 1) : l.sum ≤ (l.length : ℚ) := by
  induction l with
  | nil => simp
  | cons a t ih =>
    simp only [List.sum_cons, List.length_cons]
    have := h a (by simp)
    have := ih (fun x hx => h x (by simp [hx]))
    push_cast
    linarith

lemma avgQ_mem (l : List ℚ) (hne : l ≠ []) (h : ∀ x ∈ l, 0 ≤ x ∧ x ≤ 1) :
    0 ≤ avgQ l ∧ avgQ l ≤ 1 := by
  have hlen : (0 : ℚ) < (l.length : ℚ) := by
    have : 0 < l.length := List.length_pos.mpr hne
    exact_mod_cast this
  constructor
  · exact div_nonneg (listSum_nonneg l (fun x hx => (h x hx).1)) (le_of_lt hlen)
  · rw [avgQ, div_le_one hlen]
    exact listSum_le_length l (fun x hx => (h x hx).2)

lemma pageTextScore_mem (T : ℚ) (hT : 0 < T) (p : PageData) :
    0 ≤ pageTextScore T p ∧ pageTextScore T p ≤ 1 := by
  unfold pageTextScore
  refine ⟨le_min (div_nonneg (by positivity) (le_of_lt hT)) (by norm_num), min_le_right _ _⟩

lemma pageImageScore_mem (R : ℚ) (hR : 0 < R) (p : PageData) :
    0 ≤ pageImageScore R p ∧ pageImageScore R p ≤ 1 := by
  unfold pageImageScore
  refine ⟨le_min (div_nonneg ?_ (le_of_lt hR)) (by norm_num), min_le_right _ _⟩
  split
  · exact div_nonneg (by positivity) (by linarith)
  · norm_num

lemma decideFormat_conf_mem (t i : ℚ) (ht0 : 0 ≤ t) (ht1 : t ≤ 1)
    (hi0 : 0 ≤ i) (hi1 : i ≤ 1) :
    0 ≤ (decideFormat t i).confidence ∧ (decideFormat t i).confidence ≤ 1 := by
  unfold decideFormat
  split
  · exact ⟨ht0, ht1⟩
  · split
    · exact ⟨hi0, hi1⟩
    · split
      · constructor
        · positivity
        · nlinarith
      · constructor
        · positivity
        · nlinarith

/-! ### Claims C5 and C6 -/

/-- **C5.** For every document with at least one analyzed page,
`FormatDetector.detect_format` decides in this exact branch order:
avg_text>0.5 and avg_image<0.3 gives machine_readable with confidence avg_text;
else avg_image>0.5 and avg_text<0.2 gives scanned with confidence avg_image;
else avg_text>avg_image gives machine_readable with confidence 0.7·avg_text;
otherwise — including the exact tie — scanned with confidence 0.7·avg_image;
in particular avg_text=avg_image=0.6 yields scanned with confidence 0.42. -/
theorem detect_format_branch_order (t i : ℚ) :
    (t > 1/2 → i < 3/10 → decideFormat t i = ⟨"machine_readable", t⟩)
  ∧ (¬(t > 1/2 ∧ i < 3/10) → i > 1/2 → t < 1/5 → decideFormat t i = ⟨"scanned", i⟩)
  ∧ (¬(t > 1/2 ∧ i < 3/10) → ¬(i > 1/2 ∧ t < 1/5) → t > i →
       decideFormat t i = ⟨"machine_readable", t * (7/10)⟩)
  ∧ (¬(t > 1/2 ∧ i < 3/10) → ¬(i > 1/2 ∧ t < 1/5) → ¬(t > i) →
       decideFormat t i = ⟨"scanned", i * (7/10)⟩)
  ∧ decideFormat (3/5) (3/5) = ⟨"scanned", 21/50⟩
  ∧ (∀ T R p ps, detect_format T R (Except.ok (p :: ps)) =
      decideFormat (avgQ (((p :: ps).take 3).map (pageTextScore T)))
        (avgQ (((p :: ps).take 3).map (pageImageScore R)))) := by
  refine ⟨?_, ?_, ?_, ?_, by norm_num [decideFormat], ?_⟩
  · intro h1 h2
    rw [decideFormat, if_pos ⟨h1, h2⟩]
  · intro hn h1 h2
    rw [decideFormat, if_neg hn, if_pos ⟨h1, h2⟩]
  · intro hn hn' h
    rw [decideFormat, if_neg hn, if_neg hn', if_pos h]
  · intro hn hn' h
    rw [decideFormat, if_neg hn, if_neg hn', if_neg h]
  · intro T R p ps
    simp [detect_format]

/-- Witness for C5: the theorem evaluated at concrete average scores, covering
the tie branch (0.6, 0.6), branch 1 (0.9, 0.1) and branch 2 (0.05, 0.85). -/
theorem detect_format_branch_order_witness :
    decideFormat (3/5) (3/5) = ⟨"scanned", 21/50⟩ ∧
    decideFormat (9/10) (1/10) = ⟨"machine_readable", 9/10⟩ ∧
    decideFormat (1/20) (17/20) = ⟨"scanned", 17/20⟩ :=
  ⟨(detect_format_branch_order 0 0).2.2.2.2.1,
   (detect_format_branch_order (9/10) (1/10)).1 (by norm_num) (by norm_num),
   (detect_format_branch_order (1/20) (17/20)).2.1 (by norm_num) (by norm_num)
     (by norm_num)⟩

/-- **C6.** For every input, the confidence returned by
`FormatDetector.detect_format` lies in [0,1]: per-page scores are clamped to
[0,1] and non-negative, averages stay in [0,1], the branches return an average
or 0.7 times an average, and the zero-page and error branches return 0.
`T` and `R` are the constructor thresholds (defaults 100 and 0.8). -/
theorem detect_format_confidence_mem (T R : ℚ) (hT : 0 < T) (hR : 0 < R)
    (doc : Except String (List PageData)) :
    0 ≤ (detect_format T R doc).confidence ∧ (detect_format T R doc).confidence ≤ 1 := by
  cases doc with
  | error e => simp [detect_format]
  | ok pages =>
    by_cases hlen : pages.length = 0
    · simp [detect_format, hlen]
    · have hne : pages.take 3 ≠ [] := by
        cases pages with
        | nil => simp at hlen
        | cons a t => simp
      simp only [detect_format, hlen, if_false, reduceIte]
      apply decideFormat_conf_mem <;>
        [ exact (avgQ_mem _ (by simpa using hne)
            (by rintro x hx; obtain ⟨p, _, rfl⟩ := List.mem_map.mp hx
                exact pageTextScore_mem T hT p)).1;
          exact (avgQ_mem _ (by simpa using hne)
            (by rintro x hx; obtain ⟨p, _, rfl⟩ := List.mem_map.mp hx
                exact pageTextScore_mem T hT p)).2;
          exact (avgQ_mem _ (by simpa using hne)
            (by rintro x hx; obtain ⟨p, _, rfl⟩ := List.mem_map.mp hx
                exact pageImageScore_mem R hR p)).1;
          exact (avgQ_mem _ (by simpa using hne)
            (by rintro x hx; obtain ⟨p, _, rfl⟩ := List.mem_map.mp hx
                exact pageImageScore_mem R hR p)).2]

/-- Witness for C6: the theorem at the default thresholds (100, 0.8) on a
one-page document with 60 stripped characters and no images. -/
theorem detect_format_confidence_mem_witness :
    0 ≤ (detect_format 100 (4/5) (Except.ok [⟨60, 1, 0⟩])).confidence ∧
    (detect_format 100 (4/5) (Except.ok [⟨60, 1, 0⟩])).confidence ≤ 1 :=
  detect_format_confidence_mem 100 (4/5) (by norm_num) (by norm_num) _

/-! ## DocumentClassifier (`classifier.py`) -/

/-- Python `\s` whitespace characters (ASCII range). -/
def pyIsSpace (c : Char) : Bool :=
  c = ' ' || c = '\t' || c = '\n' || c = '\r' || c = Char.ofNat 11 || c = Char.ofNat 12

/-- Python `\w` word characters (ASCII range). -/
def isWordChar (c : Char) : Bool := c.isAlphanum || c = '_'

/-- The punctuation kept by `preprocess_text`: `[\.\,\!\?\;\:]`. -/
def keptPunct (c : Char) : Bool :=
  c = '.' || c = ',' || c = '!' || c = '?' || c = ';' || c = ':'

/-- Python `str.lower()` (ASCII range). -/
def pyLower (s : String) : String := String.mk (s.data.map Char.toLower)

/-- Python `str.strip()`: drop leading and trailing whitespace. -/
def pyStrip (s : String) : String :=
  String.mk (((s.data.dropWhile pyIsSpace).reverse.dropWhile pyIsSpace).reverse)

/-- Collapse consecutive spaces to a single space (the effect of
`re.sub(r'\s+', ' ', text)` after whitespace has been mapped to `' '`). -/
def squeezeSpaces : List Char → List Char
  | [] => []
  | [c] => [c]
  | a :: b :: t =>
    if a = ' ' ∧ b = ' ' then squeezeSpaces (b :: t)
    else a :: squeezeSpaces (b :: t)

/-- Python `str.split()`: split on whitespace runs, dropping empty pieces. -/
def pySplitWords : List Char → List Char → List (List Char)
  | [], acc => if acc.isEmpty then [] else [acc.reverse]
  | c :: t, acc =>
    if pyIsSpace c then
      if acc.isEmpty then pySplitWords t [] else acc.reverse :: pySplitWords t []
    else pySplitWords t (c :: acc)

/-- `DocumentClassifier.preprocess_text` (classifier.py lines 42-68):
lowercase, collapse whitespace, replace characters outside
`[\w\s\.\,\!\?\;\:]` by a space, drop words shorter than 2 characters and
rejoin with single spaces. -/
def preprocess_text (text : String) : String :=
  if text = "" then ""
  else
    let cs := (pyLower text).data
    let cs := squeezeSpaces (cs.map fun c => if pyIsSpace c then ' ' else c)
    let cs := cs.map fun c => if isWordChar c || c = ' ' || keptPunct c then c else ' '
    let ws := (pySplitWords cs []).filter (fun w => 2 ≤ w.length)
    String.intercalate " " (ws.map String.mk)

/-- State of a `DocumentClassifier` instance together with the behaviour of
the scikit-learn model it wraps.  `predict` models the
`vectorizer.transform`/`model.predict`/`model.predict_proba` calls of
`classify_document`, yielding the predicted category and the maximal
probability (the confidence); `.error` is a raised exception. -/
structure ClassifierModel where
  is_trained : Bool
  predict : Except String (String × ℚ)

/-- The dict returned by `DocumentClassifier.classify_document`, restricted
to the `category`, `confidence` and `error` entries. -/
structure ClassifyResult where
  category : String
  confidence : ℚ
  errMsg : Option String
deriving DecidableEq

/-- `DocumentClassifier.classify_document` (classifier.py lines 174-238).
The whole body sits in a `try:` whose handler returns the degraded
`other`/0 result. -/
def classify_document (c : ClassifierModel) (text : String) : ClassifyResult :=
  if c.is_trained = false then ⟨"other", 0, some "Model not trained"⟩
  else if pyStrip (preprocess_text text) = "" then
    ⟨"other", 0, some "Empty text after preprocessing"⟩
  else
    match c.predict with
    | .error e => ⟨"other", 0, some e⟩
    | .ok (cat, conf) => ⟨cat, conf, none⟩

/-! ## ProcessingLog and DatabaseManager (`database.py`) -/

/-- A `ProcessingLog` row (database.py lines 11-25), restricted to the
columns written by the pipeline. -/
structure ProcessingLog where
  filename : String
  file_path : String
  file_size : Nat
  status : String
  stage : Option String
  errMsg : Option String
  processingTime : Option ℚ
  documentType : Option String
  classificationResult : Option String
  elasticsearchId : Option String
deriving DecidableEq

/-- `DatabaseManager.create_processing_log` (database.py lines 54-66): a fresh
row with `status='pending'`, `stage='format_detection'`. -/
def newLog (filename file_path : String) (file_size : Nat) : ProcessingLog :=
  ⟨filename, file_path, file_size, "pending", some "format_detection",
   none, none, none, none, none⟩

/-- Apply `f` to the element at position `i` of a list, leaving the rest
unchanged (the effect of `update_processing_log` on the ledger). -/
def listModify (f : ProcessingLog → ProcessingLog) : Nat → List ProcessingLog → List ProcessingLog
  | _, [] => []
  | 0, r :: t => f r :: t
  | n + 1, r :: t => r :: listModify f n t

/-- In-memory state threaded through `PipelineProcessor.process_file`: the
ledger rows (a row's id is its position), the `self.stats` counters
(pipeline_processor.py lines 28-33) and the set of completion-marker files
written so far. -/
structure PState where
  db : List ProcessingLog
  total : Nat
  succ : Nat
  failed : Nat
  markers : List String
deriving DecidableEq

/-- The empty processor state (fresh `PipelineProcessor`, empty ledger). -/
def pstate0 : PState := ⟨[], 0, 0, 0, []⟩

/-- `DatabaseManager.update_processing_log` applied to row `i`. -/
def setLog (s : PState) (i : Nat) (f : ProcessingLog → ProcessingLog) : PState :=
  { s with db := listModify f i s.db }

/-! ## PipelineProcessor (`pipeline_processor.py`) -/

/-- The dict returned by `FormatDetector.detect_format` as consumed by
`process_file`: `typ` models `format_result.get('type', ...)` (absent key
encoded as `none`), `detErr` models `format_result.get('details', {}).get('error', ...)`. -/
structure FormatDict where
  typ : Option String
  detErr : Option String

/-- The dict returned by `OCRProcessor.extract_text_from_pdf`, restricted to
the entries `process_file` reads, with the `.get` defaults folded in. -/
structure OcrDict where
  text : String
  confidence : ℚ

/-- The dict returned by `TextExtractor.extract_text_from_pdf`, restricted to
the entries `process_file` reads, with the `.get` defaults folded in. -/
structure ExtractDict where
  success : Bool
  text : String
  method : String

/-- The dict returned by `DocumentClassifier.classify_document`, as consumed
by `process_file`: `category` models `classification_result.get('category','other')`. -/
structure ClassDict where
  category : String

/-- The dict returned by `ElasticsearchIndexer.index_document`, restricted
to the entries `process_file` reads. -/
structure IndexDict where
  success : Bool
  err : Option String
  docId : Option String

/-- Behaviour of one `process_file` invocation's collaborators.  Each
`Except String` value models the corresponding call either returning
normally or raising; `dbUpdate k` is the `k`-th
`DatabaseManager.update_processing_log` call attempted during the
invocation; `markerOk` is whether the marker-file write in
`_mark_file_as_processed` succeeds (its failure is swallowed there);
`elapsed` models `time.time() - start_time` at the final update. -/
structure Oracle where
  fileExists : Bool
  fileSize : Nat
  dbCreate : Except String Unit
  dbUpdate : Nat → Except String Unit
  detect : Except String FormatDict
  ocr : Except String OcrDict
  textExtract : Except String ExtractDict
  classify : Except String ClassDict
  esIndex : Except String IndexDict
  markerOk : Bool
  elapsed : ℚ

/-- The dict returned by `process_file`, restricted to the `success`,
`error` and `log_id` entries. -/
structure ProcResult where
  success : Bool
  errMsg : Option String
  logId : Option Nat
deriving DecidableEq

/-- `os.path.basename` for forward-slash paths: the characters after the
last `'/'`. -/
def basename (p : String) : String :=
  String.mk (p.data.foldl (fun acc c => if c = '/' then [] else acc ++ [c]) [])

/-- The `except Exception` handler of `process_file`
(pipeline_processor.py lines 195-209): build the error message, update the
ledger if `log_id` is bound (an update that itself raises propagates out of
`process_file`), bump the `failed` counter, return the failure dict.
`k` is the index of the update call the handler attempts. -/
def handler (o : Oracle) (k : Nat) (lid : Option Nat) (e : String) (s : PState) :
    Except String ProcResult × PState :=
  let msg := "Pipeline processing failed: " ++ e
  match lid with
  | none => (Except.ok ⟨false, some msg, none⟩, { s with failed := s.failed + 1 })
  | some i =>
    match o.dbUpdate k with
    | .error e2 => (Except.error e2, s)
    | .ok _ =>
      let s1 := setLog s i fun r => { r with status := "failed", errMsg := some msg }
      (Except.ok ⟨false, some msg, some i⟩, { s1 with failed := s1.failed + 1 })

/-- A staged terminal failure inside the `try:` body: update the ledger row
to `failed` with the message (update index `k`), bump `failed`, return the
failure dict; if the update raises, control passes to the `except` handler. -/
def stageFail (o : Oracle) (k i : Nat) (msg : String) (s : PState) :
    Except String ProcResult × PState :=
  match o.dbUpdate k with
  | .error e => handler o (k + 1) (some i) e s
  | .ok _ =>
    let s1 := setLog s i fun r => { r with status := "failed", errMsg := some msg }
    (Except.ok ⟨false, some msg, some i⟩, { s1 with failed := s1.failed + 1 })

/-- Stages 3 and 4 of `process_file` (pipeline_processor.py lines 124-193),
reached after a non-empty extraction with ledger row `i`; the next ledger
update has index 3 on every path reaching this point. -/
def afterExtraction (o : Oracle) (p : String) (i : Nat) (s : PState) :
    Except String ProcResult × PState :=
  match o.dbUpdate 3 with
  | .error e => handler o 4 (some i) e s
  | .ok _ =>
  let s := setLog s i fun r => { r with stage := some "classification" }
  match o.classify with
  | .error e => handler o 4 (some i) e s
  | .ok cd =>
  match o.dbUpdate 4 with
  | .error e => handler o 5 (some i) e s
  | .ok _ =>
  let s := setLog s i fun r => { r with classificationResult := some cd.category }
  match o.dbUpdate 5 with
  | .error e => handler o 6 (some i) e s
  | .ok _ =>
  let s := setLog s i fun r => { r with stage := some "indexing" }
  match o.esIndex with
  | .error e => handler o 6 (some i) e s
  | .ok ir =>
  if ir.success = false then
    stageFail o 6 i ("Elasticsearch indexing failed: " ++ ir.err.getD "Unknown error") s
  else
    match o.dbUpdate 6 with
    | .error e => handler o 7 (some i) e s
    | .ok _ =>
    let s := setLog s i fun r =>
      { r with status := "completed", processingTime := some o.elapsed,
               elasticsearchId := ir.docId, stage := some "completed" }
    let s := if o.markerOk then
               { s with markers := s.markers ++ [p ++ PROCESSED_EXTENSION] }
             else s
    (Except.ok ⟨true, none, some i⟩, { s with succ := s.succ + 1 })

/-- `PipelineProcessor.process_file` (pipeline_processor.py lines 37-209). -/
def process_file (o : Oracle) (p : String) (s0 : PState) :
    Except String ProcResult × PState :=
  let s := { s0 with total := s0.total + 1 }
  match o.dbCreate with
  | .error e => handler o 0 none e s
  | .ok _ =>
  let i := s.db.length
  let s := { s with
    db := s.db ++ [newLog (basename p) p (if o.fileExists then o.fileSize else 0)] }
  match o.dbUpdate 0 with
  | .error e => handler o 1 (some i) e s
  | .ok _ =>
  let s := setLog s i fun r => { r with stage := some "format_detection", status := "processing" }
  match o.detect with
  | .error e => handler o 1 (some i) e s
  | .ok fd =>
  let dt := fd.typ.getD "unknown"
  if dt = "unknown" then
    stageFail o 1 i
      ("Could not determine document format: " ++ fd.detErr.getD "Unknown error") s
  else
  match o.dbUpdate 1 with
  | .error e => handler o 2 (some i) e s
  | .ok _ =>
  let s := setLog s i fun r => { r with documentType := some dt }
  match o.dbUpdate 2 with
  | .error e => handler o 3 (some i) e s
  | .ok _ =>
  let s := setLog s i fun r => { r with stage := some "text_extraction" }
  if dt = "scanned" then
    match o.ocr with
    | .error e => handler o 3 (some i) e s
    | .ok od =>
      if pyStrip od.text = "" then
        stageFail o 3 i "OCR extraction failed or produced no text" s
      else afterExtraction o p i s
  else
    match o.textExtract with
    | .error e => handler o 3 (some i) e s
    | .ok td =>
      if td.success = false ∨ pyStrip td.text = "" then
        stageFail o 3 i "Text extraction failed or produced no text" s
      else afterExtraction o p i s

/-- `get_processing_stats`'s `success_rate` entry
(pipeline_processor.py line 228). -/
def successRate (s : PState) : ℚ :=
  if 0 < s.total then (s.succ : ℚ) / (s.total : ℚ) * 100 else 0

/-! ### Ledger-list lemmas -/

lemma length_listModify (f : ProcessingLog → ProcessingLog) (i : Nat)
    (l : List ProcessingLog) : (listModify f i l).length = l.length := by
  induction l generalizing i with
  | nil => cases i <;> rfl
  | cons a t ih =>
    cases i with
    | zero => rfl
    | succ n => simp [listModify, ih]

lemma getElem_listModify_self (f : ProcessingLog → ProcessingLog) (i : Nat)
    (l : List ProcessingLog) : (listModify f i l)[i]? = l[i]?.map f := by
  induction l generalizing i with
  | nil => cases i <;> simp [listModify]
  | cons a t ih =>
    cases i with
    | zero => simp [listModify]
    | succ n => simp [listModify, ih]

lemma getElem_listModify_ne (f : ProcessingLog → ProcessingLog) (i j : Nat)
    (l : List ProcessingLog) (h : j ≠ i) :
    (listModify f i l)[j]? = l[j]? := by
  induction l generalizing i j with
  | nil => cases i <;> simp [listModify]
  | cons a t ih =>
    cases i with
    | zero =>
      cases j with
      | zero => exact absurd rfl h
      | succ m => simp [listModify]
    | succ n =>
      cases j with
      | zero => simp [listModify]
      | succ m => simp [listModify, ih n m (by omega)]

lemma getElem_append_len (l : List ProcessingLog) (a : ProcessingLog) :
    (l ++ [a])[l.length]? = some a := by
  induction l with
  | nil => rfl
  | cons b t ih => simp [ih]

lemma getElem_append_lt (l : List ProcessingLog) (a : ProcessingLog) (j : Nat)
    (h : j < l.length) : (l ++ [a])[j]? = l[j]? := by
  induction l generalizing j with
  | nil => simp at h
  | cons b t ih =>
    cases j with
    | zero => simp
    | succ m => simpa using ih m (by simpa using h)

@[simp] lemma setLog_total (s : PState) (i : Nat) (f : ProcessingLog → ProcessingLog) :
    (setLog s i f).total = s.total := rfl

@[simp] lemma setLog_succ (s : PState) (i : Nat) (f : ProcessingLog → ProcessingLog) :
    (setLog s i f).succ = s.succ := rfl

@[simp] lemma setLog_failed (s : PState) (i : Nat) (f : ProcessingLog → ProcessingLog) :
    (setLog s i f).failed = s.failed := rfl

@[simp] lemma setLog_markers (s : PState) (i : Nat) (f : ProcessingLog → ProcessingLog) :
    (setLog s i f).markers = s.markers := rfl

@[simp] lemma setLog_db_length (s : PState) (i : Nat) (f : ProcessingLog → ProcessingLog) :
    (setLog s i f).db.length = s.db.length := by
  simp [setLog, length_listModify]

/-! ### A postcondition for the terminal segments of `process_file`

`TermSpec o p i s out` describes the result/state pair `out` produced by any
of the terminal continuations of `process_file` (the `except` handler, a
staged failure, or stages 3-4) run from state `s` with ledger row `i`. -/

def TermSpec (o : Oracle) (p : String) (i : Nat) (s : PState)
    (out : Except String ProcResult × PState) : Prop :=
  out.2.total = s.total ∧
  out.2.db.length = s.db.length ∧
  (∀ j, j ≠ i → out.2.db[j]? = s.db[j]?) ∧
  (∀ e, out.1 = Except.error e →
     out.2.succ = s.succ ∧ out.2.failed = s.failed ∧ out.2.markers = s.markers ∧
     ∃ k e2, o.dbUpdate k = Except.error e2) ∧
  (∀ r, out.1 = Except.ok r →
    r.logId = some i ∧
    (r.success = false →
      out.2.failed = s.failed + 1 ∧ out.2.succ = s.succ ∧
      out.2.markers = s.markers ∧ r.errMsg.isSome = true ∧
      ∃ rec, out.2.db[i]? = some rec ∧ rec.status = "failed" ∧
        rec.errMsg.isSome = true) ∧
    (r.success = true →
      out.2.succ = s.succ + 1 ∧ out.2.failed = s.failed ∧
      out.2.markers = (if o.markerOk = true then
        s.markers ++ [p ++ PROCESSED_EXTENSION] else s.markers) ∧
      ∃ ir, o.esIndex = Except.ok ir ∧ ir.success = true ∧
      ∃ cd, o.classify = Except.ok cd ∧
      ∃ pre, s.db[i]? = some pre ∧
        out.2.db[i]? = some ({ pre with
          status := "completed", stage := some "completed",
          processingTime := some o.elapsed, elasticsearchId := ir.docId,
          classificationResult := some cd.category })))

lemma termSpec_handler_some (o : Oracle) (p : String) (k i : Nat) (e : String)
    (s : PState) (hi : i < s.db.length) :
    TermSpec o p i s (handler o k (some i) e s) := by
  obtain ⟨pre, hpre⟩ : ∃ pre, s.db[i]? = some pre :=
    ⟨s.db[i], (List.getElem?_eq_getElem hi)⟩
  unfold TermSpec handler
  cases h : o.dbUpdate k with
  | error e2 =>
    exact ⟨rfl, rfl, fun j hj => rfl,
      fun e3 he => ⟨rfl, rfl, rfl, k, e2, h⟩,
      fun r hr => by simp at hr⟩
  | ok u =>
    refine ⟨rfl, by simp, ?_, fun e3 he => by simp at he, fun r hr => ?_⟩
    · intro j hj
      simp [setLog, getElem_listModify_ne _ _ _ _ hj]
    · injection hr with hr
      subst hr
      refine ⟨rfl, ?_, by simp⟩
      intro _
      refine ⟨rfl, rfl, rfl, rfl, ?_⟩
      refine ⟨{ pre with
        status := "failed",
        errMsg := some ("Pipeline processing failed: " ++ e) }, ?_, rfl, rfl⟩
      simp [setLog, getElem_listModify_self, hpre]

lemma termSpec_stageFail (o : Oracle) (p : String) (k i : Nat) (msg : String)
    (s : PState) (hi : i < s.db.length) :
    TermSpec o p i s (stageFail o k i msg s) := by
  obtain ⟨pre, hpre⟩ : ∃ pre, s.db[i]? = some pre :=
    ⟨s.db[i], (List.getElem?_eq_getElem hi)⟩
  unfold stageFail
  cases h : o.dbUpdate k with
  | error e => exact termSpec_handler_some o p (k + 1) i e s hi
  | ok u =>
    unfold TermSpec
    refine ⟨rfl, by simp, ?_, fun e3 he => by simp at he, fun r hr => ?_⟩
    · intro j hj
      simp [setLog, getElem_listModify_ne _ _ _ _ hj]
    · injection hr with hr
      subst hr
      refine ⟨rfl, ?_, by simp⟩
      intro _
      refine ⟨rfl, rfl, rfl, rfl, ?_⟩
      refine ⟨{ pre with
        status := "failed", errMsg := some msg }, ?_, rfl, rfl⟩
      simp [setLog, getElem_listModify_self, hpre]

/-- Transport a `TermSpec` along one preceding `setLog` of row `i`, provided
the modification keeps the fields that the success record inherits. -/
lemma termSpec_setLog (o : Oracle) (p : String) (i : Nat) (s : PState)
    (f : ProcessingLog → ProcessingLog)
    (hkeep : ∀ r, (f r).filename = r.filename ∧ (f r).file_path = r.file_path ∧
      (f r).file_size = r.file_size ∧ (f r).errMsg = r.errMsg ∧
      (f r).documentType = r.documentType)
    (hi : i < s.db.length)
    (out : Except String ProcResult × PState)
    (h : TermSpec o p i (setLog s i f) out) : TermSpec o p i s out := by
  obtain ⟨pre, hpre⟩ : ∃ pre, s.db[i]? = some pre :=
    ⟨s.db[i], (List.getElem?_eq_getElem hi)⟩
  obtain ⟨h1, h1b, h1c, h2, h3⟩ := h
  refine ⟨h1, by simpa using h1b, ?_, h2, fun r hr => ?_⟩
  · intro j hj
    rw [h1c j hj]
    simp [setLog, getElem_listModify_ne _ _ _ _ hj]
  · obtain ⟨g1, g4, g5⟩ := h3 r hr
    refine ⟨g1, g4, ?_⟩
    intro hsucc
    obtain ⟨c1, c2, c3, ir, hir, hirs, cd, hcd, pre1, hpre1, hout⟩ := g5 hsucc
    refine ⟨c1, c2, c3, ir, hir, hirs, cd, hcd, pre, hpre, ?_⟩
    have : pre1 = f pre := by
      rw [setLog] at hpre1
      simp only [getElem_listModify_self, hpre, Option.map_some] at hpre1
      exact (Option.some.injEq _ _ ▸ hpre1).symm
    subst this
    rw [hout]
    obtain ⟨k1, k2, k3, k4, k5⟩ := hkeep pre
    simp [ProcessingLog.mk.injEq, k1, k2, k3, k4, k5]

lemma termSpec_afterExtraction (o : Oracle) (p : String) (i : Nat) (s : PState)
    (hi : i < s.db.length) :
    TermSpec o p i s (afterExtraction o p i s) := by
  have hkeep : ∀ v : Option String, ∀ r : ProcessingLog,
      ({ r with stage := v } : ProcessingLog).filename = r.filename ∧
      ({ r with stage := v } : ProcessingLog).file_path = r.file_path ∧
      ({ r with stage := v } : ProcessingLog).file_size = r.file_size ∧
      ({ r with stage := v } : ProcessingLog).errMsg = r.errMsg ∧
      ({ r with stage := v } : ProcessingLog).documentType = r.documentType :=
    fun v r => ⟨rfl, rfl, rfl, rfl, rfl⟩
  have hkeepc : ∀ v : Option String, ∀ r : ProcessingLog,
      ({ r with classificationResult := v } : ProcessingLog).filename = r.filename ∧
      ({ r with classificationResult := v } : ProcessingLog).file_path = r.file_path ∧
      ({ r with classificationResult := v } : ProcessingLog).file_size = r.file_size ∧
      ({ r with classificationResult := v } : ProcessingLog).errMsg = r.errMsg ∧
      ({ r with classificationResult := v } : ProcessingLog).documentType = r.documentType :=
    fun v r => ⟨rfl, rfl, rfl, rfl, rfl⟩
  have hi1 : ∀ (f : ProcessingLog → ProcessingLog), i < (setLog s i f).db.length :=
    fun f => by simpa using hi
  have hi2 : ∀ (f g : ProcessingLog → ProcessingLog),
      i < (setLog (setLog s i f) i g).db.length :=
    fun f g => by simpa using hi
  have hi3 : ∀ (f g h : ProcessingLog → ProcessingLog),
      i < (setLog (setLog (setLog s i f) i g) i h).db.length :=
    fun f g h => by simpa using hi
  unfold afterExtraction
  cases h3 : o.dbUpdate 3 with
  | error e => exact termSpec_handler_some o p 4 i e s hi
  | ok u3 =>
    cases hc : o.classify with
    | error e =>
      exact termSpec_setLog o p i s _ (hkeep _) hi _
        (termSpec_handler_some o p 4 i e _ (hi1 _))
    | ok cd =>
      cases h4 : o.dbUpdate 4 with
      | error e =>
        exact termSpec_setLog o p i s _ (hkeep _) hi _
          (termSpec_handler_some o p 5 i e _ (hi1 _))
      | ok u4 =>
        cases h5 : o.dbUpdate 5 with
        | error e =>
          exact termSpec_setLog o p i s _ (hkeep _) hi _
            (termSpec_setLog o p i _ _ (hkeepc _) (hi1 _) _
              (termSpec_handler_some o p 6 i e _ (hi2 _ _)))
        | ok u5 =>
          cases hei : o.esIndex with
          | error e =>
            exact termSpec_setLog o p i s _ (hkeep _) hi _
              (termSpec_setLog o p i _ _ (hkeepc _) (hi1 _) _
                (termSpec_setLog o p i _ _ (hkeep _) (hi2 _ _) _
                  (termSpec_handler_some o p 6 i e _ (hi3 _ _ _))))
          | ok ir =>
            by_cases hs : ir.success = false
            · dsimp only
              rw [if_pos hs]
              exact termSpec_setLog o p i s _ (hkeep _) hi _
                (termSpec_setLog o p i _ _ (hkeepc _) (hi1 _) _
                  (termSpec_setLog o p i _ _ (hkeep _) (hi2 _ _) _
                    (termSpec_stageFail o p 6 i _ _ (hi3 _ _ _))))
            · dsimp only
              rw [if_neg hs]
              have hst : ir.success = true := by
                cases hx : ir.success with
                | false => exact absurd hx hs
                | true => rfl
              cases h6 : o.dbUpdate 6 with
              | error e =>
                exact termSpec_setLog o p i s _ (hkeep _) hi _
                  (termSpec_setLog o p i _ _ (hkeepc _) (hi1 _) _
                    (termSpec_setLog o p i _ _ (hkeep _) (hi2 _ _) _
                      (termSpec_handler_some o p 7 i e _ (hi3 _ _ _))))
              | ok u6 =>
                obtain ⟨pre, hpre⟩ : ∃ pre, s.db[i]? = some pre :=
                  ⟨s.db[i], List.getElem?_eq_getElem hi⟩
                cases hm : o.markerOk <;>
                  · dsimp only
                    refine ⟨rfl, by simp, ?_, fun e he => by simp at he,
                      fun r hr => ?_⟩
                    · intro j hj
                      simp [setLog, getElem_listModify_ne _ _ _ _ hj]
                    · injection hr with hr
                      subst hr
                      refine ⟨rfl, by simp, ?_⟩
                      intro _
                      refine ⟨by simp, by simp, by simp [hm], ir, hei,
                        hst, cd, hc, pre, hpre, ?_⟩
                      simp [setLog, getElem_listModify_self, hpre]

/-! ### The master postcondition of `process_file` -/

/-- `PfSpec o p s out` collects everything the claims need about one
`process_file` invocation run from state `s` on path `p`. -/
def PfSpec (o : Oracle) (p : String) (s : PState)
    (out : Except String ProcResult × PState) : Prop :=
  out.2.total = s.total + 1 ∧
  (∀ e, out.1 = Except.error e →
     out.2.succ = s.succ ∧ out.2.failed = s.failed ∧ out.2.markers = s.markers ∧
     ∃ k e2, o.dbUpdate k = Except.error e2) ∧
  (o.dbCreate = Except.ok () →
     out.2.db.length = s.db.length + 1 ∧
     (∀ j, j < s.db.length → out.2.db[j]? = s.db[j]?)) ∧
  (∀ e, o.dbCreate = Except.error e →
     out = (Except.ok ⟨false, some ("Pipeline processing failed: " ++ e), none⟩,
            { s with total := s.total + 1, failed := s.failed + 1 })) ∧
  (∀ r, out.1 = Except.ok r →
    (r.success = false →
       out.2.failed = s.failed + 1 ∧ out.2.succ = s.succ ∧
       out.2.markers = s.markers ∧ r.errMsg.isSome = true ∧
       (o.dbCreate = Except.ok () →
          r.logId = some s.db.length ∧
          ∃ rec, out.2.db[s.db.length]? = some rec ∧
            rec.status = "failed" ∧ rec.errMsg.isSome = true)) ∧
    (r.success = true →
       out.2.succ = s.succ + 1 ∧ out.2.failed = s.failed ∧
       out.2.markers = (if o.markerOk = true then
         s.markers ++ [p ++ PROCESSED_EXTENSION] else s.markers) ∧
       r.logId = some s.db.length ∧
       ∃ ir, o.esIndex = Except.ok ir ∧ ir.success = true ∧
       ∃ cd, o.classify = Except.ok cd ∧
       ∃ rec, out.2.db[s.db.length]? = some rec ∧
         rec.status = "completed" ∧ rec.stage = some "completed" ∧
         rec.processingTime = some o.elapsed ∧
         rec.elasticsearchId = ir.docId ∧
         rec.classificationResult = some cd.category ∧
         rec.errMsg = none ∧ rec.filename = basename p ∧ rec.file_path = p))

/-- Bridge a `TermSpec` of a terminal continuation, run from the intermediate
state `s1` that already holds the freshly created row, back to `PfSpec` over
the initial state `s`. -/
lemma pf_bridge (o : Oracle) (p : String) (s : PState)
    {out : Except String ProcResult × PState} {s1 : PState}
    (h : TermSpec o p s.db.length s1 out)
    (hcr : o.dbCreate = Except.ok ())
    (pre0 : ProcessingLog)
    (hrow : s1.db[s.db.length]? = some pre0)
    (hpre : pre0.errMsg = none ∧ pre0.filename = basename p ∧ pre0.file_path = p)
    (hdb : s1.db.length = s.db.length + 1)
    (hget : ∀ j, j < s.db.length → s1.db[j]? = s.db[j]?)
    (htot : s1.total = s.total + 1) (hsucc : s1.succ = s.succ)
    (hfail : s1.failed = s.failed) (hmark : s1.markers = s.markers) :
    PfSpec o p s out := by
  obtain ⟨h1, h1b, h1c, h2, h3⟩ := h
  refine ⟨by rw [h1, htot], ?_, ?_, ?_, ?_⟩
  · intro e he
    obtain ⟨a, b, c, d⟩ := h2 e he
    exact ⟨by rw [a, hsucc], by rw [b, hfail], by rw [c, hmark], d⟩
  · intro _
    refine ⟨by rw [h1b, hdb], ?_⟩
    intro j hj
    rw [h1c j (by omega), hget j hj]
  · intro e he
    rw [hcr] at he
    exact absurd he (by simp)
  · intro r hr
    obtain ⟨g1, g4, g5⟩ := h3 r hr
    constructor
    · intro hf
      obtain ⟨a, b, c, d, rec, hrec, hstat, hem⟩ := g4 hf
      exact ⟨by rw [a, hfail], by rw [b, hsucc], by rw [c, hmark], d,
        fun _ => ⟨g1, rec, hrec, hstat, hem⟩⟩
    · intro ht
      obtain ⟨a, b, c, ir, hir, hirs, cd, hcd, pre1, hpre1, hout⟩ := g5 ht
      have hp : pre1 = pre0 := by
        rw [hrow] at hpre1
        injection hpre1 with hx
        exact hx.symm
      subst hp
      rw [hmark] at c
      refine ⟨by rw [a, hsucc], by rw [b, hfail], c, g1, ir, hir, hirs,
        cd, hcd, _, hout, rfl, rfl, rfl, rfl, rfl, hpre.1, hpre.2.1, hpre.2.2⟩

/-- The master lemma: every `process_file` run satisfies `PfSpec`. -/
lemma pf_spec (o : Oracle) (p : String) (s : PState) :
    PfSpec o p s (process_file o p s) := by
  unfold process_file
  cases hcr : o.dbCreate with
  | error e =>
    dsimp only [handler]
    refine ⟨rfl, fun e2 he => by simp at he, ?_, ?_, fun r hr => ?_⟩
    · intro hok
      rw [hcr] at hok
      exact absurd hok (by simp)
    · intro e2 he2
      rw [hcr] at he2
      injection he2 with hx
      subst hx
      rfl
    · injection hr with hr
      subst hr
      refine ⟨?_, by simp⟩
      intro _
      refine ⟨rfl, rfl, rfl, rfl, ?_⟩
      intro hok
      rw [hcr] at hok
      exact absurd hok (by simp)
  | ok u =>
    dsimp only
    have hcr' : o.dbCreate = Except.ok () := hcr
    let row0 : ProcessingLog :=
      newLog (basename p) p (if o.fileExists = true then o.fileSize else 0)
    let sA : PState := { s with total := s.total + 1, db := s.db ++ [row0] }
    have hiA : s.db.length < sA.db.length := by simp [sA]
    have hrowA : sA.db[s.db.length]? = some row0 := getElem_append_len s.db row0
    have hgetA : ∀ j, j < s.db.length → sA.db[j]? = s.db[j]? :=
      fun j hj => getElem_append_lt s.db row0 j hj
    cases h0 : o.dbUpdate 0 with
    | error e =>
      exact pf_bridge o p s (termSpec_handler_some o p 1 s.db.length e sA hiA)
        hcr' row0 hrowA ⟨rfl, rfl, rfl⟩ (by simp [sA]) hgetA rfl rfl rfl rfl
    | ok u0 =>
      let f0 : ProcessingLog → ProcessingLog :=
        fun r => { r with stage := some "format_detection", status := "processing" }
      let sB : PState := setLog sA s.db.length f0
      have hiB : s.db.length < sB.db.length := by simp [sB, sA]
      have hrowB : sB.db[s.db.length]? = some (f0 row0) := by
        rw [show sB.db = listModify f0 s.db.length sA.db from rfl,
          getElem_listModify_self, hrowA]
        rfl
      have hgetB : ∀ j, j < s.db.length → sB.db[j]? = s.db[j]? := fun j hj => by
        rw [show sB.db = listModify f0 s.db.length sA.db from rfl,
          getElem_listModify_ne _ _ _ _ (by omega), hgetA j hj]
      have hdbB : sB.db.length = s.db.length + 1 := by simp [sB, sA]
      have hmoreB : (f0 row0).errMsg = none ∧ (f0 row0).filename = basename p ∧
          (f0 row0).file_path = p := ⟨rfl, rfl, rfl⟩
      cases hdet : o.detect with
      | error e =>
        exact pf_bridge o p s (termSpec_handler_some o p 1 s.db.length e sB hiB)
          hcr' (f0 row0) hrowB hmoreB hdbB hgetB rfl rfl rfl rfl
      | ok fd =>
        by_cases hdt : fd.typ.getD "unknown" = "unknown"
        · dsimp only
          rw [if_pos hdt]
          exact pf_bridge o p s (termSpec_stageFail o p 1 s.db.length _ sB hiB)
            hcr' (f0 row0) hrowB hmoreB hdbB hgetB rfl rfl rfl rfl
        · dsimp only
          rw [if_neg hdt]
          cases h1 : o.dbUpdate 1 with
          | error e =>
            exact pf_bridge o p s (termSpec_handler_some o p 2 s.db.length e sB hiB)
              hcr' (f0 row0) hrowB hmoreB hdbB hgetB rfl rfl rfl rfl
          | ok u1 =>
            let fdc : ProcessingLog → ProcessingLog :=
              fun r => { r with documentType := some (fd.typ.getD "unknown") }
            let sC : PState := setLog sB s.db.length fdc
            have hiC : s.db.length < sC.db.length := by simp [sC, sB, sA]
            have hrowC : sC.db[s.db.length]? = some (fdc (f0 row0)) := by
              rw [show sC.db = listModify fdc s.db.length sB.db from rfl,
                getElem_listModify_self, hrowB]
              rfl
            have hgetC : ∀ j, j < s.db.length → sC.db[j]? = s.db[j]? := fun j hj => by
              rw [show sC.db = listModify fdc s.db.length sB.db from rfl,
                getElem_listModify_ne _ _ _ _ (by omega), hgetB j hj]
            have hdbC : sC.db.length = s.db.length + 1 := by simp [sC, sB, sA]
            have hmoreC : (fdc (f0 row0)).errMsg = none ∧
                (fdc (f0 row0)).filename = basename p ∧
                (fdc (f0 row0)).file_path = p := ⟨rfl, rfl, rfl⟩
            cases h2 : o.dbUpdate 2 with
            | error e =>
              exact pf_bridge o p s (termSpec_handler_some o p 3 s.db.length e sC hiC)
                hcr' (fdc (f0 row0)) hrowC hmoreC hdbC hgetC rfl rfl rfl rfl
            | ok u2 =>
              let fst : ProcessingLog → ProcessingLog :=
                fun r => { r with stage := some "text_extraction" }
              let sD : PState := setLog sC s.db.length fst
              have hiD : s.db.length < sD.db.length := by simp [sD, sC, sB, sA]
              have hrowD : sD.db[s.db.length]? = some (fst (fdc (f0 row0))) := by
                rw [show sD.db = listModify fst s.db.length sC.db from rfl,
                  getElem_listModify_self, hrowC]
                rfl
              have hgetD : ∀ j, j < s.db.length → sD.db[j]? = s.db[j]? := fun j hj => by
                rw [show sD.db = listModify fst s.db.length sC.db from rfl,
                  getElem_listModify_ne _ _ _ _ (by omega), hgetC j hj]
              have hdbD : sD.db.length = s.db.length + 1 := by simp [sD, sC, sB, sA]
              have hmoreD : (fst (fdc (f0 row0))).errMsg = none ∧
                  (fst (fdc (f0 row0))).filename = basename p ∧
                  (fst (fdc (f0 row0))).file_path = p := ⟨rfl, rfl, rfl⟩
              by_cases hsc : fd.typ.getD "unknown" = "scanned"
              · rw [if_pos hsc]
                cases hocr : o.ocr with
                | error e =>
                  exact pf_bridge o p s
                    (termSpec_handler_some o p 3 s.db.length e sD hiD)
                    hcr' (fst (fdc (f0 row0))) hrowD hmoreD hdbD hgetD rfl rfl rfl rfl
                | ok od =>
                  by_cases hb : pyStrip od.text = ""
                  · dsimp only
                    rw [if_pos hb]
                    exact pf_bridge o p s
                      (termSpec_stageFail o p 3 s.db.length _ sD hiD)
                      hcr' (fst (fdc (f0 row0))) hrowD hmoreD hdbD hgetD rfl rfl rfl rfl
                  · dsimp only
                    rw [if_neg hb]
                    exact pf_bridge o p s
                      (termSpec_afterExtraction o p s.db.length sD hiD)
                      hcr' (fst (fdc (f0 row0))) hrowD hmoreD hdbD hgetD rfl rfl rfl rfl
              · rw [if_neg hsc]
                cases hte : o.textExtract with
                | error e =>
                  exact pf_bridge o p s
                    (termSpec_handler_some o p 3 s.db.length e sD hiD)
                    hcr' (fst (fdc (f0 row0))) hrowD hmoreD hdbD hgetD rfl rfl rfl rfl
                | ok td =>
                  by_cases hb : td.success = false ∨ pyStrip td.text = ""
                  · dsimp only
                    rw [if_pos hb]
                    exact pf_bridge o p s
                      (termSpec_stageFail o p 3 s.db.length _ sD hiD)
                      hcr' (fst (fdc (f0 row0))) hrowD hmoreD hdbD hgetD rfl rfl rfl rfl
                  · dsimp only
                    rw [if_neg hb]
                    exact pf_bridge o p s
                      (termSpec_afterExtraction o p s.db.length sD hiD)
                      hcr' (fst (fdc (f0 row0))) hrowD hmoreD hdbD hgetD rfl rfl rfl rfl


deriving instance DecidableEq for Except

/-! ### Concrete oracles used by witnesses and counterexamples -/

/-- A run in which every collaborator behaves: the ledger works, the detector
reports a machine-readable document, native extraction returns non-blank
text, classification and indexing succeed, the marker write succeeds. -/
def goodOracle : Oracle where
  fileExists := true
  fileSize := 1000
  dbCreate := Except.ok ()
  dbUpdate := fun _ => Except.ok ()
  detect := Except.ok ⟨some "machine_readable", none⟩
  ocr := Except.ok ⟨"", 0⟩
  textExtract := Except.ok ⟨true, "Invoice 12345 total amount due", "pdfminer"⟩
  classify := Except.ok ⟨"invoice"⟩
  esIndex := Except.ok ⟨true, none, some "es-1"⟩
  markerOk := true
  elapsed := 1

/-- A run in which every `update_processing_log` call raises (the database is
down), so the ledger update inside the `except` handler raises too. -/
def badOracle : Oracle :=
  { goodOracle with dbUpdate := fun _ => Except.error "db down" }

/-- A run in which the format detector raises an unanticipated exception. -/
def detectRaisesOracle : Oracle :=
  { goodOracle with detect := Except.error "boom" }

/-! ### Claims C1, C2, C4, C10 -/

/-- **C1.** For every call to `PipelineProcessor.process_file` in which the
ledger operations return normally, exactly one `ProcessingLog` row is
created (the ledger grows by one and prior rows are untouched), and by the
time the call returns that row's status is `completed` or `failed` — never
`pending` or `processing`. -/
theorem process_file_one_record_terminal (o : Oracle) (p : String) (s : PState)
    (hc : o.dbCreate = Except.ok ()) (hu : ∀ k, o.dbUpdate k = Except.ok ()) :
    (process_file o p s).2.db.length = s.db.length + 1 ∧
    (∀ j, j < s.db.length → (process_file o p s).2.db[j]? = s.db[j]?) ∧
    ∃ rec, (process_file o p s).2.db[s.db.length]? = some rec ∧
      (rec.status = "completed" ∨ rec.status = "failed") := by
  obtain ⟨h1, h2, h3, h4, h5⟩ := pf_spec o p s
  obtain ⟨hl, hp⟩ := h3 hc
  refine ⟨hl, hp, ?_⟩
  cases hr : (process_file o p s).1 with
  | error e =>
    obtain ⟨_, _, _, k, e2, hk⟩ := h2 e hr
    rw [hu k] at hk
    exact absurd hk (by simp)
  | ok r =>
    obtain ⟨hfalse, htrue⟩ := h5 r hr
    cases hs : r.success with
    | true =>
      obtain ⟨_, _, _, _, ir, hir, hirs, cd, hcd, rec, hrec, hst, _⟩ := htrue hs
      exact ⟨rec, hrec, Or.inl hst⟩
    | false =>
      obtain ⟨_, _, _, _, hcc⟩ := hfalse hs
      obtain ⟨_, rec, hrec, hst, _⟩ := hcc hc
      exact ⟨rec, hrec, Or.inr hst⟩

/-- Witness for C1: the theorem at the all-good oracle on a fresh state. -/
theorem process_file_one_record_terminal_witness :
    (process_file goodOracle "a.pdf" pstate0).2.db.length = pstate0.db.length + 1 ∧
    (∀ j, j < pstate0.db.length →
      (process_file goodOracle "a.pdf" pstate0).2.db[j]? = pstate0.db[j]?) ∧
    ∃ rec, (process_file goodOracle "a.pdf" pstate0).2.db[pstate0.db.length]? = some rec ∧
      (rec.status = "completed" ∨ rec.status = "failed") :=
  process_file_one_record_terminal goodOracle "a.pdf" pstate0 rfl (fun _ => rfl)

/-- Counterexample to **C2** as stated: with a ledger whose
`update_processing_log` raises, the `except` handler of `process_file`
itself raises, and `process_file` propagates the exception to its caller. -/
theorem process_file_propagates_counterexample :
    (process_file badOracle "doc.pdf" pstate0).1 = Except.error "db down" := rfl

/-- **C2 (amended).** For every input path, initial state, and behaviour of
the collaborators in which the ledger update calls return normally,
`process_file` returns a result dict, and an exception raised by the
ledger-create call, the format detector, the OCR extractor, the native text
extractor, the classifier, or the indexer — at the point where that
collaborator's call is reached — is caught and converted to a failed result
dict carrying `"Pipeline processing failed: " ++` the error text.  An
exception raised by the ledger update performed inside the `except` handler
itself is the sole propagation path (see the counterexample). -/
theorem process_file_no_propagation (o : Oracle) (p : String) (s : PState)
    (hu : ∀ k, o.dbUpdate k = Except.ok ()) :
    (∃ r, (process_file o p s).1 = Except.ok r ∧
      (r.success = false → r.errMsg.isSome = true)) ∧
    (∀ e, o.dbCreate = Except.error e →
      (process_file o p s).1 =
        Except.ok ⟨false, some ("Pipeline processing failed: " ++ e), none⟩) ∧
    (∀ e, o.dbCreate = Except.ok () → o.detect = Except.error e →
      (process_file o p s).1 =
        Except.ok ⟨false, some ("Pipeline processing failed: " ++ e),
          some s.db.length⟩) ∧
    (∀ fd e, o.dbCreate = Except.ok () → o.detect = Except.ok fd →
      fd.typ.getD "unknown" = "scanned" → o.ocr = Except.error e →
      (process_file o p s).1 =
        Except.ok ⟨false, some ("Pipeline processing failed: " ++ e),
          some s.db.length⟩) ∧
    (∀ fd e, o.dbCreate = Except.ok () → o.detect = Except.ok fd →
      fd.typ.getD "unknown" ≠ "unknown" → fd.typ.getD "unknown" ≠ "scanned" →
      o.textExtract = Except.error e →
      (process_file o p s).1 =
        Except.ok ⟨false, some ("Pipeline processing failed: " ++ e),
          some s.db.length⟩) ∧
    (∀ fd od e, o.dbCreate = Except.ok () → o.detect = Except.ok fd →
      fd.typ.getD "unknown" = "scanned" → o.ocr = Except.ok od →
      pyStrip od.text ≠ "" → o.classify = Except.error e →
      (process_file o p s).1 =
        Except.ok ⟨false, some ("Pipeline processing failed: " ++ e),
          some s.db.length⟩) ∧
    (∀ fd td e, o.dbCreate = Except.ok () → o.detect = Except.ok fd →
      fd.typ.getD "unknown" ≠ "unknown" → fd.typ.getD "unknown" ≠ "scanned" →
      o.textExtract = Except.ok td → td.success = true → pyStrip td.text ≠ "" →
      o.classify = Except.error e →
      (process_file o p s).1 =
        Except.ok ⟨false, some ("Pipeline processing failed: " ++ e),
          some s.db.length⟩) ∧
    (∀ fd od cd e, o.dbCreate = Except.ok () → o.detect = Except.ok fd →
      fd.typ.getD "unknown" = "scanned" → o.ocr = Except.ok od →
      pyStrip od.text ≠ "" → o.classify = Except.ok cd →
      o.esIndex = Except.error e →
      (process_file o p s).1 =
        Except.ok ⟨false, some ("Pipeline processing failed: " ++ e),
          some s.db.length⟩) ∧
    (∀ fd td cd e, o.dbCreate = Except.ok () → o.detect = Except.ok fd →
      fd.typ.getD "unknown" ≠ "unknown" → fd.typ.getD "unknown" ≠ "scanned" →
      o.textExtract = Except.ok td → td.success = true → pyStrip td.text ≠ "" →
      o.classify = Except.ok cd → o.esIndex = Except.error e →
      (process_file o p s).1 =
        Except.ok ⟨false, some ("Pipeline processing failed: " ++ e),
          some s.db.length⟩) := by
  refine ⟨?_, ?_, ?_, ?_, ?_, ?_, ?_, ?_, ?_⟩
  · obtain ⟨h1, h2, h3, h4, h5⟩ := pf_spec o p s
    cases hr : (process_file o p s).1 with
    | error e =>
      obtain ⟨_, _, _, k, e2, hk⟩ := h2 e hr
      rw [hu k] at hk
      exact absurd hk (by simp)
    | ok r =>
      obtain ⟨hfalse, _⟩ := h5 r hr
      exact ⟨r, rfl, fun hs => (hfalse hs).2.2.2.1⟩
  · intro e hcr
    unfold process_file handler
    simp [hcr]
  · intro e hcr hdet
    unfold process_file handler
    simp [hcr, hu, hdet]
  · intro fd e hcr hdet hsc hocr
    unfold process_file handler
    simp [hcr, hu, hdet, hsc, hocr]
  · intro fd e hcr hdet hn1 hn2 hte
    unfold process_file handler
    simp [hcr, hu, hdet, hn1, hn2, hte]
  · intro fd od e hcr hdet hsc hocr hob hcls
    unfold process_file afterExtraction handler
    simp [hcr, hu, hdet, hsc, hocr, hob, hcls]
  · intro fd td e hcr hdet hn1 hn2 hte hts htb hcls
    unfold process_file afterExtraction handler
    simp [hcr, hu, hdet, hn1, hn2, hte, hts, htb, hcls]
  · intro fd od cd e hcr hdet hsc hocr hob hcls hei
    unfold process_file afterExtraction handler
    simp [hcr, hu, hdet, hsc, hocr, hob, hcls, hei]
  · intro fd td cd e hcr hdet hn1 hn2 hte hts htb hcls hei
    unfold process_file afterExtraction handler
    simp [hcr, hu, hdet, hn1, hn2, hte, hts, htb, hcls, hei]

/-- Witness for C2 (amended): the format detector raises, yet the call
returns the failed result dict carrying the error text. -/
theorem process_file_no_propagation_witness :
    (∃ r, (process_file detectRaisesOracle "a.pdf" pstate0).1 = Except.ok r ∧
      (r.success = false → r.errMsg.isSome = true)) ∧
    (process_file detectRaisesOracle "a.pdf" pstate0).1 =
      Except.ok ⟨false, some ("Pipeline processing failed: " ++ "boom"), some 0⟩ :=
  ⟨(process_file_no_propagation detectRaisesOracle "a.pdf" pstate0 (fun _ => rfl)).1,
   (process_file_no_propagation detectRaisesOracle "a.pdf" pstate0
     (fun _ => rfl)).2.2.1 "boom" rfl rfl⟩

/-- **C4.** For every call to `process_file` in which the ledger operations
and the marker write behave: on full success the row is set to
`status='completed'`, `stage='completed'`, with the processing time and the
index result's document id stored, and the completion marker
`<source_path> + '.processed'` is written; on every terminal failure the row
is set to `status='failed'` with an error message and no marker is written. -/
theorem process_file_success_failure_effects (o : Oracle) (p : String) (s : PState)
    (hc : o.dbCreate = Except.ok ()) (hu : ∀ k, o.dbUpdate k = Except.ok ())
    (hm : o.markerOk = true) :
    ∃ r, (process_file o p s).1 = Except.ok r ∧
      ∃ rec, (process_file o p s).2.db[s.db.length]? = some rec ∧
      (r.success = true →
         rec.status = "completed" ∧ rec.stage = some "completed" ∧
         rec.processingTime = some o.elapsed ∧
         (∀ ir, o.esIndex = Except.ok ir → rec.elasticsearchId = ir.docId) ∧
         (process_file o p s).2.markers = s.markers ++ [p ++ PROCESSED_EXTENSION]) ∧
      (r.success = false →
         rec.status = "failed" ∧ rec.errMsg.isSome = true ∧
         (process_file o p s).2.markers = s.markers) := by
  obtain ⟨h1, h2, h3, h4, h5⟩ := pf_spec o p s
  cases hr : (process_file o p s).1 with
  | error e =>
    obtain ⟨_, _, _, k, e2, hk⟩ := h2 e hr
    rw [hu k] at hk
    exact absurd hk (by simp)
  | ok r =>
    obtain ⟨hfalse, htrue⟩ := h5 r hr
    cases hs : r.success with
    | true =>
      obtain ⟨_, _, hmk, _, ir, hir, hirs, cd, hcd, rec, hrec, hst, hstg, htm,
        hid, hcls, _, _, _⟩ := htrue hs
      refine ⟨r, rfl, rec, hrec, ?_, ?_⟩
      · intro _
        refine ⟨hst, hstg, htm, ?_, ?_⟩
        · intro ir2 hir2
          rw [hir] at hir2
          injection hir2 with hx
          rw [hid, hx]
        · rw [hmk, if_pos hm]
      · intro hx
        rw [hs] at hx
        exact absurd hx (by simp)
    | false =>
      obtain ⟨_, _, hmk, hem, hcc⟩ := hfalse hs
      obtain ⟨_, rec, hrec, hstat, hem2⟩ := hcc hc
      refine ⟨r, rfl, rec, hrec, ?_, fun _ => ⟨hstat, hem2, hmk⟩⟩
      intro hx
      rw [hs] at hx
      exact absurd hx (by simp)

/-- Witness for C4: the theorem at the all-good oracle on a fresh state. -/
theorem process_file_success_failure_effects_witness :
    ∃ r, (process_file goodOracle "a.pdf" pstate0).1 = Except.ok r ∧
      ∃ rec, (process_file goodOracle "a.pdf" pstate0).2.db[pstate0.db.length]? = some rec ∧
      (r.success = true →
         rec.status = "completed" ∧ rec.stage = some "completed" ∧
         rec.processingTime = some goodOracle.elapsed ∧
         (∀ ir, goodOracle.esIndex = Except.ok ir → rec.elasticsearchId = ir.docId) ∧
         (process_file goodOracle "a.pdf" pstate0).2.markers =
           pstate0.markers ++ ["a.pdf" ++ PROCESSED_EXTENSION]) ∧
      (r.success = false →
         rec.status = "failed" ∧ rec.errMsg.isSome = true ∧
         (process_file goodOracle "a.pdf" pstate0).2.markers = pstate0.markers) :=
  process_file_success_failure_effects goodOracle "a.pdf" pstate0 rfl
    (fun _ => rfl) rfl

lemma successRate_mem (s : PState) (h : s.succ ≤ s.total) :
    0 ≤ successRate s ∧ successRate s ≤ 100 := by
  unfold successRate
  split
  · next hpos =>
    have htot : (0 : ℚ) < (s.total : ℚ) := by exact_mod_cast hpos
    have hle : (s.succ : ℚ) / (s.total : ℚ) ≤ 1 := by
      rw [div_le_one htot]
      exact_mod_cast h
    have hge : (0 : ℚ) ≤ (s.succ : ℚ) / (s.total : ℚ) := by positivity
    constructor
    · nlinarith
    · nlinarith
  · norm_num

/-- **C10.** Every returning `process_file` call increments `total_processed`
by exactly one and exactly one of `successful`/`failed` by exactly one, so
`total_processed = successful + failed` is preserved; consequently
`get_processing_stats` never divides by zero and its `success_rate` lies in
[0,100]. -/
theorem process_file_stats_invariant (o : Oracle) (p : String) (s : PState)
    (r : ProcResult) (h : (process_file o p s).1 = Except.ok r) :
    (process_file o p s).2.total = s.total + 1 ∧
    ((r.success = true ∧ (process_file o p s).2.succ = s.succ + 1 ∧
        (process_file o p s).2.failed = s.failed) ∨
     (r.success = false ∧ (process_file o p s).2.failed = s.failed + 1 ∧
        (process_file o p s).2.succ = s.succ)) ∧
    (s.total = s.succ + s.failed →
      (process_file o p s).2.total =
        (process_file o p s).2.succ + (process_file o p s).2.failed) ∧
    (s.succ ≤ s.total →
      0 ≤ successRate (process_file o p s).2 ∧
      successRate (process_file o p s).2 ≤ 100) := by
  obtain ⟨h1, h2, h3, h4, h5⟩ := pf_spec o p s
  obtain ⟨hfalse, htrue⟩ := h5 r h
  have key : (r.success = true ∧ (process_file o p s).2.succ = s.succ + 1 ∧
        (process_file o p s).2.failed = s.failed) ∨
      (r.success = false ∧ (process_file o p s).2.failed = s.failed + 1 ∧
        (process_file o p s).2.succ = s.succ) := by
    cases hs : r.success with
    | true =>
      obtain ⟨a, b, _⟩ := htrue hs
      exact Or.inl ⟨rfl, a, b⟩
    | false =>
      obtain ⟨a, b, _⟩ := hfalse hs
      exact Or.inr ⟨rfl, a, b⟩
  refine ⟨h1, key, ?_, ?_⟩
  · intro hbal
    rcases key with ⟨_, a, b⟩ | ⟨_, a, b⟩ <;> omega
  · intro hle
    apply successRate_mem
    rcases key with ⟨_, a, b⟩ | ⟨_, a, b⟩ <;> omega

/-- Witness for C10: the theorem at the all-good oracle on a fresh state. -/
theorem process_file_stats_invariant_witness :
    (process_file goodOracle "a.pdf" pstate0).2.total = pstate0.total + 1 ∧
    (((ProcResult.mk true none (some 0)).success = true ∧
        (process_file goodOracle "a.pdf" pstate0).2.succ = pstate0.succ + 1 ∧
        (process_file goodOracle "a.pdf" pstate0).2.failed = pstate0.failed) ∨
     ((ProcResult.mk true none (some 0)).success = false ∧
        (process_file goodOracle "a.pdf" pstate0).2.failed = pstate0.failed + 1 ∧
        (process_file goodOracle "a.pdf" pstate0).2.succ = pstate0.succ)) := by
  have h : (process_file goodOracle "a.pdf" pstate0).1 =
      Except.ok (ProcResult.mk true none (some 0)) := by decide
  exact ⟨(process_file_stats_invariant goodOracle "a.pdf" pstate0 _ h).1,
    (process_file_stats_invariant goodOracle "a.pdf" pstate0 _ h).2.1⟩

/-! ### Claim C3 -/

/-- **C3.** An internal error in `DocumentClassifier.classify_document`
(untrained model, empty preprocessed text, or a raised exception) degrades
the classification to `category='other'` with `confidence=0`; and
`process_file` still proceeds to the indexing stage with whatever dict the
classifier returned, so a classifier failure alone can still yield a
completed record. -/
theorem classifier_never_fatal :
    (∀ (c : ClassifierModel) (text : String),
      (c.is_trained = false ∨ pyStrip (preprocess_text text) = "" ∨
        ∃ e, c.predict = Except.error e) →
      (classify_document c text).category = "other" ∧
      (classify_document c text).confidence = 0) ∧
    (∀ (o : Oracle) (p : String) (s : PState) (cd : ClassDict) (fd : FormatDict)
      (td : ExtractDict) (ir : IndexDict),
      o.dbCreate = Except.ok () → (∀ k, o.dbUpdate k = Except.ok ()) →
      o.detect = Except.ok fd → fd.typ = some "machine_readable" →
      o.textExtract = Except.ok td → td.success = true → pyStrip td.text ≠ "" →
      o.classify = Except.ok cd → o.esIndex = Except.ok ir → ir.success = true →
      ∃ r, (process_file o p s).1 = Except.ok r ∧ r.success = true ∧
        ∃ rec, (process_file o p s).2.db[s.db.length]? = some rec ∧
          rec.status = "completed" ∧
          rec.classificationResult = some cd.category) := by
  constructor
  · intro c text hdeg
    unfold classify_document
    rcases hdeg with h | h | ⟨e, h⟩
    · simp [h]
    · by_cases hct : c.is_trained = false
      · simp [hct]
      · simp [hct, h]
    · by_cases hct : c.is_trained = false
      · simp [hct]
      · by_cases hpt : pyStrip (preprocess_text text) = ""
        · simp [hct, hpt]
        · simp [hct, hpt, h]
  · intro o p s cd fd td ir hc hu hdet hft hte hts htb hcl hei hirs
    have hres : (process_file o p s).1 = Except.ok ⟨true, none, some s.db.length⟩ := by
      unfold process_file afterExtraction
      simp only [hc, hu, hdet, hft, hte, hcl, hei, hts, htb]
      simp [hirs]
    obtain ⟨h1, h2, h3, h4, h5⟩ := pf_spec o p s
    obtain ⟨hfalse, htrue⟩ := h5 _ hres
    obtain ⟨_, _, _, _, ir', hir', hirs', cd', hcd', rec, hrec, hst, _, _, _,
      hclsr, _, _, _⟩ := htrue rfl
    have hcc : cd' = cd := by
      rw [hcl] at hcd'
      injection hcd' with hx
      exact hx.symm
    subst hcc
    exact ⟨_, hres, rfl, rec, hrec, hst, hclsr⟩

/-- Witness for C3: an untrained classifier degrades on concrete text, and a
run whose classifier returned the degraded dict still completes. -/
theorem classifier_never_fatal_witness :
    ((classify_document ⟨false, Except.ok ("invoice", 1)⟩ "hello world").category
        = "other" ∧
     (classify_document ⟨false, Except.ok ("invoice", 1)⟩ "hello world").confidence
        = 0) ∧
    ∃ r, (process_file goodOracle "a.pdf" pstate0).1 = Except.ok r ∧
      r.success = true ∧
      ∃ rec, (process_file goodOracle "a.pdf" pstate0).2.db[pstate0.db.length]? =
          some rec ∧
        rec.status = "completed" ∧
        rec.classificationResult = some (ClassDict.mk "invoice").category :=
  ⟨classifier_never_fatal.1 ⟨false, Except.ok ("invoice", 1)⟩ "hello world"
      (Or.inl rfl),
   classifier_never_fatal.2 goodOracle "a.pdf" pstate0 ⟨"invoice"⟩
     ⟨some "machine_readable", none⟩
     ⟨true, "Invoice 12345 total amount due", "pdfminer"⟩
     ⟨true, none, some "es-1"⟩ rfl (fun _ => rfl) rfl rfl rfl rfl (by decide)
     rfl rfl rfl⟩

/-! ## FileMonitor (`file_monitor.py`) -/

/-- Python `str.endswith` (list-based so the kernel can evaluate it). -/
def pyEndsWith (s t : String) : Bool := t.data.isSuffixOf s.data

/-- The extension check of `_process_existing_files`
(file_monitor.py line 162): `.pdf` or `.PDF`. -/
def isPdfName (f : String) : Bool := pyEndsWith f ".pdf" || pyEndsWith f ".PDF"

/-- `PDFFileHandler._is_already_processed` (file_monitor.py lines 83-89): the
sidecar `<path> + '.processed'` exists — either it was on disk when the scan
started (`fs`) or it was written during this run (`s.markers`). -/
def isMarked (fs : List String) (s : PState) (f : String) : Prop :=
  (f ++ PROCESSED_EXTENSION) ∈ fs ∨ (f ++ PROCESSED_EXTENSION) ∈ s.markers

instance (fs : List String) (s : PState) (f : String) :
    Decidable (isMarked fs s f) := by
  unfold isMarked
  exact inferInstance

/-- `FileMonitor._process_existing_files` (file_monitor.py lines 151-175):
walk the file list, process every unmarked PDF through
`pipeline_processor.process_file`, counting the invocations that return
normally (a raised exception is caught by the per-file `except` and the
counter is not bumped). -/
def processExisting (ofam : String → Oracle) (fs : List String) :
    PState → List String → PState × Nat
  | s, [] => (s, 0)
  | s, f :: rest =>
    if isPdfName f = true ∧ ¬ isMarked fs s f then
      match process_file (ofam f) f s with
      | (Except.ok _, s1) =>
        let t := processExisting ofam fs s1 rest
        (t.1, t.2 + 1)
      | (Except.error _, s1) => processExisting ofam fs s1 rest
    else processExisting ofam fs s rest

/-- A `process_file` call only ever appends to the set of marker files. -/
lemma pf_markers_mono (o : Oracle) (p : String) (s : PState) :
    ∃ t, (process_file o p s).2.markers = s.markers ++ t := by
  obtain ⟨h1, h2, h3, h4, h5⟩ := pf_spec o p s
  cases hr : (process_file o p s).1 with
  | error e =>
    obtain ⟨_, _, c, _⟩ := h2 e hr
    exact ⟨[], by simp [c]⟩
  | ok r =>
    obtain ⟨hfalse, htrue⟩ := h5 r hr
    cases hs : r.success with
    | false =>
      obtain ⟨_, _, c, _⟩ := hfalse hs
      exact ⟨[], by simp [c]⟩
    | true =>
      obtain ⟨_, _, c, _⟩ := htrue hs
      cases hm : o.markerOk with
      | false =>
        rw [hm] at c
        simp only [Bool.false_eq_true, if_false] at c
        exact ⟨[], by simp [c]⟩
      | true =>
        rw [hm] at c
        simp only [if_true] at c
        exact ⟨[p ++ PROCESSED_EXTENSION], c⟩

/-- A startup scan only ever appends to the set of marker files. -/
lemma processExisting_markers_mono (ofam : String → Oracle) (fs : List String) :
    ∀ (l : List String) (s : PState),
      ∃ t, (processExisting ofam fs s l).1.markers = s.markers ++ t := by
  intro l
  induction l with
  | nil => exact fun s => ⟨[], by simp [processExisting]⟩
  | cons f rest ih =>
    intro s
    unfold processExisting
    split
    · have hmono := pf_markers_mono (ofam f) f s
      cases hpf : process_file (ofam f) f s with
      | mk res s1 =>
        rw [hpf] at hmono
        obtain ⟨t1, ht1⟩ := hmono
        cases res with
        | ok r =>
          obtain ⟨t2, ht2⟩ := ih s1
          exact ⟨t1 ++ t2, by
            dsimp only
            rw [ht2, ht1, List.append_assoc]⟩
        | error e =>
          obtain ⟨t2, ht2⟩ := ih s1
          exact ⟨t1 ++ t2, by rw [ht2, ht1, List.append_assoc]⟩
    · exact ih s

/-- With the all-good oracle, `process_file` succeeds regardless of path and
state. -/
lemma goodRun (p : String) (s : PState) :
    (process_file goodOracle p s).1 = Except.ok ⟨true, none, some s.db.length⟩ := by
  have hstrip : ¬ (pyStrip "Invoice 12345 total amount due" = "") := by decide
  unfold process_file afterExtraction
  simp [goodOracle, hstrip]

/-- With the all-good oracle, `process_file` writes exactly the marker of the
processed path. -/
lemma goodRun_markers (p : String) (s : PState) :
    (process_file goodOracle p s).2.markers =
      s.markers ++ [p ++ PROCESSED_EXTENSION] := by
  obtain ⟨h1, h2, h3, h4, h5⟩ := pf_spec goodOracle p s
  obtain ⟨_, htrue⟩ := h5 _ (goodRun p s)
  obtain ⟨_, _, c, _⟩ := htrue rfl
  simpa using c

/-- After a good-oracle startup scan, every PDF of the walked list bears a
marker: either it already had one on disk or the scan just wrote one. -/
lemma goodScan_marks (fs : List String) : ∀ (l : List String) (s : PState),
    ∀ f ∈ l, isPdfName f = true →
      (f ++ PROCESSED_EXTENSION) ∈ fs ∨
      (f ++ PROCESSED_EXTENSION) ∈
        (processExisting (fun _ => goodOracle) fs s l).1.markers := by
  intro l
  induction l with
  | nil =>
    intro s f hf
    simp at hf
  | cons g rest ih =>
    intro s f hf hpdf
    unfold processExisting
    by_cases hcond : isPdfName g = true ∧ ¬ isMarked fs s g
    · rw [if_pos hcond]
      cases hpf : process_file goodOracle g s with
      | mk res s1 =>
        cases res with
        | error e =>
          have hg := goodRun g s
          rw [hpf] at hg
          exact absurd hg (by simp)
        | ok r =>
        dsimp only
        cases hf with
        | head =>
          have hm1 : (g ++ PROCESSED_EXTENSION) ∈ s1.markers := by
            have hmk := goodRun_markers g s
            rw [hpf] at hmk
            rw [hmk]
            simp
          obtain ⟨t, ht⟩ :=
            processExisting_markers_mono (fun _ => goodOracle) fs rest s1
          right
          rw [ht]
          exact List.mem_append_left t hm1
        | tail _ hf => exact ih s1 f hf hpdf
    · rw [if_neg hcond]
      cases hf with
      | head =>
        have hm : isMarked fs s g := by
          by_contra hnm
          exact hcond ⟨hpdf, hnm⟩
        rcases hm with h | h
        · exact Or.inl h
        · obtain ⟨t, ht⟩ :=
            processExisting_markers_mono (fun _ => goodOracle) fs rest s
          right
          rw [ht]
          exact List.mem_append_left t h
      | tail _ hf => exact ih s f hf hpdf

/-- A scan over a list whose PDFs are all marked is a no-op. -/
lemma scan_all_marked (ofam : String → Oracle) (fs : List String) :
    ∀ (l : List String) (s : PState),
      (∀ f ∈ l, isPdfName f = true → isMarked fs s f) →
      processExisting ofam fs s l = (s, 0) := by
  intro l
  induction l with
  | nil => exact fun s _ => rfl
  | cons g rest ih =>
    intro s h
    unfold processExisting
    rw [if_neg]
    · exact ih s (fun f hf => h f (by simp [hf]))
    · rintro ⟨hpdf, hnm⟩
      exact hnm (h g (by simp) hpdf)

/-! ### Claim C7 -/

/-- **C7.** A file already bearing its completion marker is skipped by the
startup scan as a no-op — no ledger record, no error, no state change; a scan
over a list whose PDFs are all marked processes zero records; and a second
good-oracle startup scan over the directory after a first run (whose walk
now also lists the previously written sidecar files, which are not PDFs)
processes zero additional records. -/
theorem startup_scan_skips_marked :
    (∀ (ofam : String → Oracle) (fs : List String) (s : PState) (f : String),
      (f ++ PROCESSED_EXTENSION) ∈ fs →
      processExisting ofam fs s [f] = (s, 0)) ∧
    (∀ (ofam : String → Oracle) (fs : List String) (s : PState) (l : List String),
      (∀ f ∈ l, isPdfName f = true → isMarked fs s f) →
      processExisting ofam fs s l = (s, 0)) ∧
    (∀ (fs extra : List String) (s : PState),
      (∀ x ∈ extra, isPdfName x = false) →
      processExisting (fun _ => goodOracle) (fs ++ extra)
        (processExisting (fun _ => goodOracle) fs s fs).1 (fs ++ extra) =
      ((processExisting (fun _ => goodOracle) fs s fs).1, 0)) := by
  refine ⟨?_, ?_, ?_⟩
  · intro ofam fs s f hmem
    exact scan_all_marked ofam fs [f] s
      (fun g hg _ => by
        cases hg with
        | head => exact Or.inl hmem
        | tail _ hg => cases hg)
  · intro ofam fs s l h
    exact scan_all_marked ofam fs l s h
  · intro fs extra s hx
    apply scan_all_marked
    intro f hf hpdf
    rcases List.mem_append.mp hf with hf | hf
    · rcases goodScan_marks fs fs s f hf hpdf with h | h
      · exact Or.inl (List.mem_append_left extra h)
      · exact Or.inr h
    · rw [hx f hf] at hpdf
      exact absurd hpdf (by simp)

/-- Witness for C7: a marked file is skipped, and the second scan over a
one-file directory marker-completed by the first run processes zero
records. -/
theorem startup_scan_skips_marked_witness :
    processExisting (fun _ => goodOracle)
      ["b.pdf", "b.pdf" ++ PROCESSED_EXTENSION] pstate0 ["b.pdf"] =
      (pstate0, 0) ∧
    processExisting (fun _ => goodOracle) (["a.pdf"] ++ ["a.pdf" ++ PROCESSED_EXTENSION])
      (processExisting (fun _ => goodOracle) ["a.pdf"] pstate0 ["a.pdf"]).1
      (["a.pdf"] ++ ["a.pdf" ++ PROCESSED_EXTENSION]) =
      ((processExisting (fun _ => goodOracle) ["a.pdf"] pstate0 ["a.pdf"]).1, 0) :=
  ⟨startup_scan_skips_marked.1 (fun _ => goodOracle) _ pstate0 "b.pdf" (by decide),
   startup_scan_skips_marked.2.2 ["a.pdf"] ["a.pdf" ++ PROCESSED_EXTENSION]
     pstate0 (by decide)⟩

/-! ## TextExtractor (`text_extractor.py`) and the OCR page joiner -/

/-- The page-break separator used by both the OCR path
(ocr_processor.py line 81) and the PyMuPDF fallback
(text_extractor.py line 138). -/
def pageBreakSep : String := "\n\n--- Page Break ---\n\n"

/-- `'\n\n--- Page Break ---\n\n'.join(all_text)` of
`OCRProcessor.extract_text_from_pdf` (ocr_processor.py line 81). -/
def ocrJoinPages (pages : List String) : String :=
  String.intercalate pageBreakSep pages

/-- Behaviour of the extraction libraries during one
`TextExtractor.extract_text_from_pdf` call: `pmWhole` is pdfminer's
`extract_text(pdf_path)`, `pmPages` the raw per-page texts accumulated from
`extract_pages`, `pmMeta` the fitz metadata read by
`_extract_metadata_pdfminer`, `muPages`/`muMeta` the fitz page texts and
metadata of the PyMuPDF fallback.  `.error` is a raised exception. -/
structure TEOracle where
  pmWhole : Except String String
  pmPages : Except String (List String)
  pmMeta : Except String (List (String × String))
  muPages : Except String (List String)
  muMeta : List (String × String)

/-- The dict returned by the extractors, restricted to the entries the
claims mention. -/
structure ExtractionOut where
  text : String
  page_texts : List String
  total_pages : Nat
  metadata : List (String × String)
  method : String
  success : Bool
  errMsg : Option String
deriving DecidableEq

/-- The failure dict of the extractors' `except` branches. -/
def failOut (method e : String) : ExtractionOut :=
  ⟨"", [], 0, [], method, false, some e⟩

/-- `TextExtractor._extract_metadata_pdfminer` (text_extractor.py lines
166-174): failure or absence yields the empty dict, not an error. -/
def extract_metadata_pdfminer (o : TEOracle) : List (String × String) :=
  match o.pmMeta with
  | .error _ => []
  | .ok m => m

/-- `TextExtractor._extract_with_pdfminer` (text_extractor.py lines 61-111).
The returned `text` is `extract_text(pdf_path).strip()` — the library's
whole-document output — while `page_texts` comes from a separate per-page
pass over `extract_pages`. -/
def extract_with_pdfminer (o : TEOracle) : ExtractionOut :=
  match o.pmWhole with
  | .error e => failOut "pdfminer" e
  | .ok text =>
    match o.pmPages with
    | .error e => failOut "pdfminer" e
    | .ok raw =>
      ⟨pyStrip text, raw.map pyStrip, raw.length,
       extract_metadata_pdfminer o, "pdfminer", true, none⟩

/-- `TextExtractor._extract_with_pymupdf` (text_extractor.py lines 113-164):
the raw page texts are joined with the explicit page-break separator and the
join is stripped. -/
def extract_with_pymupdf (o : TEOracle) : ExtractionOut :=
  match o.muPages with
  | .error e => failOut "pymupdf" e
  | .ok raw =>
    ⟨pyStrip (ocrJoinPages raw), raw.map pyStrip, raw.length,
     o.muMeta, "pymupdf", true, none⟩

/-- `TextExtractor.extract_text_from_pdf` (text_extractor.py lines 21-59):
pdfminer first; on its failure the PyMuPDF fallback if enabled. -/
def extract_text_from_pdf (fallback : Bool) (o : TEOracle) : ExtractionOut :=
  let r := extract_with_pdfminer o
  if r.success = true then r
  else if fallback = true then extract_with_pymupdf o
  else r

/-- A library behaviour on which C8's join clause fails: pdfminer's
whole-document text is "A" while the per-page pass sees pages "A" and "B". -/
def c8Oracle : TEOracle :=
  ⟨Except.ok "A", Except.ok ["A", "B"], Except.ok [], Except.ok [], []⟩

/-! ### Claim C8 -/

/-- Counterexample to **C8** as stated: on the pdfminer (primary) path the
returned text is the library's whole-document output, which differs from the
per-page texts joined with the OCR page-break separator. -/
theorem extractor_join_counterexample :
    (extract_text_from_pdf true c8Oracle).success = true ∧
    (extract_text_from_pdf true c8Oracle).method = "pdfminer" ∧
    (extract_text_from_pdf true c8Oracle).text ≠
      ocrJoinPages (extract_text_from_pdf true c8Oracle).page_texts ∧
    (extract_text_from_pdf true c8Oracle).text ≠
      pyStrip (ocrJoinPages (extract_text_from_pdf true c8Oracle).page_texts) := by
  decide

/-- **C8 (amended).** `extract_text_from_pdf` calls PDFMiner first and
attempts PyMuPDF only on primary failure, the first success winning;
metadata absence is not an error; and on the PyMuPDF fallback path — not the
pdfminer path — the returned text equals the raw page texts joined with the
same page-break separator as the OCR path, then stripped. -/
theorem extractor_fallback_order (o : TEOracle) :
    ((extract_with_pdfminer o).success = true →
       extract_text_from_pdf true o = extract_with_pdfminer o) ∧
    ((extract_with_pdfminer o).success = false →
       extract_text_from_pdf true o = extract_with_pymupdf o) ∧
    (∀ raw, o.muPages = Except.ok raw →
       (extract_with_pymupdf o).text = pyStrip (ocrJoinPages raw) ∧
       (extract_with_pymupdf o).success = true) ∧
    (∀ e w raw, o.pmMeta = Except.error e → o.pmWhole = Except.ok w →
       o.pmPages = Except.ok raw →
       (extract_with_pdfminer o).success = true ∧
       (extract_with_pdfminer o).metadata = []) := by
  refine ⟨?_, ?_, ?_, ?_⟩
  · intro h
    unfold extract_text_from_pdf
    rw [if_pos h]
  · intro h
    unfold extract_text_from_pdf
    rw [if_neg (by simp [h]), if_pos rfl]
  · intro raw h
    unfold extract_with_pymupdf
    rw [h]
    exact ⟨rfl, rfl⟩
  · intro e w raw hm hw hp
    unfold extract_with_pdfminer
    rw [hw, hp]
    exact ⟨rfl, by simp [extract_metadata_pdfminer, hm]⟩

/-- Witness for C8 (amended): concrete behaviours exercising the primary
path, the fallback path, and failed metadata. -/
theorem extractor_fallback_order_witness :
    extract_text_from_pdf true c8Oracle = extract_with_pdfminer c8Oracle ∧
    extract_text_from_pdf true
        ⟨Except.error "pm down", Except.ok [], Except.ok [], Except.ok ["X", "Y"], []⟩ =
      extract_with_pymupdf
        ⟨Except.error "pm down", Except.ok [], Except.ok [], Except.ok ["X", "Y"], []⟩ ∧
    (extract_with_pymupdf
        ⟨Except.error "pm down", Except.ok [], Except.ok [], Except.ok ["X", "Y"], []⟩).text =
      pyStrip (ocrJoinPages ["X", "Y"]) ∧
    (extract_with_pdfminer
        ⟨Except.ok "A", Except.ok ["A"], Except.error "no meta", Except.ok [], []⟩).success
        = true ∧
    (extract_with_pdfminer
        ⟨Except.ok "A", Except.ok ["A"], Except.error "no meta", Except.ok [], []⟩).metadata
        = [] :=
  ⟨(extractor_fallback_order c8Oracle).1 (by decide),
   (extractor_fallback_order _).2.1 (by decide),
   ((extractor_fallback_order _).2.2.1 ["X", "Y"] rfl).1,
   ((extractor_fallback_order _).2.2.2 "no meta" "A" ["A"] rfl rfl rfl).1,
   ((extractor_fallback_order _).2.2.2 "no meta" "A" ["A"] rfl rfl rfl).2⟩

/-! ## ElasticsearchIndexer (`elasticsearch_indexer.py`) -/

/-- `ElasticsearchIndexer.generate_document_id` (lines 112-114):
`hashlib.md5(file_path.encode()).hexdigest()`.  The md5 digest is a library
capability, taken as the parameter `md5hex`; the id is that function of the
source path alone. -/
def generate_document_id (md5hex : String → String) (file_path : String) : String :=
  md5hex file_path

/-- The slice of the `document_data` dict passed to `index_document` that
the model tracks. -/
structure DocData where
  filename : String
  file_path : String
  text : String
  category : String

/-- The indexed document (`doc` of lines 137-159), restricted to identity
and content. -/
structure ESDoc where
  document_id : String
  filename : String
  file_path : String
  content : String
  title : String
  category : String
deriving DecidableEq

/-- Split a character list at newlines, keeping empty pieces
(Python `str.split('\n')`). -/
def splitNl (cs : List Char) : List (List Char) :=
  cs.foldr (fun c acc => if c = '\n' then [] :: acc
            else (c :: acc.headD []) :: acc.tail) [[]]

/-- `ElasticsearchIndexer._extract_title` (lines 413-428): the stripped
first line of the text, truncated at 100 characters. -/
def extract_title (text : String) : String :=
  if text = "" then "Untitled Document"
  else
    let first := pyStrip (String.mk ((splitNl (pyStrip text).data).headD []))
    if first ≠ "" then
      if 100 < first.length then String.mk (first.data.take 100) ++ "..."
      else first
    else "Untitled Document"

/-- The Elasticsearch node: connection flag plus the store keyed by
document id (`es.index` upserts by id). -/
structure ESState where
  connected : Bool
  store : List (String × ESDoc)

/-- Lookup by id; models `es.get`, whose `NotFound` is caught and turned
into `None` by `get_document_by_id`. -/
def assocGet : List (String × ESDoc) → String → Option ESDoc
  | [], _ => none
  | (k, v) :: t, id => if k = id then some v else assocGet t id

/-- `es.index(index, id, body)`: replace the documents stored under `id`,
or append if absent. -/
def upsert (store : List (String × ESDoc)) (id : String) (doc : ESDoc) :
    List (String × ESDoc) :=
  if store.any (fun kv => kv.1 = id) then
    store.map (fun kv => if kv.1 = id then (id, doc) else kv)
  else store ++ [(id, doc)]

/-- `ElasticsearchIndexer.index_document` (lines 116-181). -/
def index_document (md5hex : String → String) (es : ESState) (d : DocData) :
    IndexDict × ESState :=
  if es.connected = false then
    (⟨false, some "Not connected to Elasticsearch", none⟩, es)
  else
    let id := generate_document_id md5hex d.file_path
    let doc : ESDoc :=
      ⟨id, d.filename, d.file_path, d.text, extract_title d.text, d.category⟩
    (⟨true, none, some id⟩, { es with store := upsert es.store id doc })

/-- `ElasticsearchIndexer.get_document_by_id` (lines 367-378). -/
def get_document_by_id (es : ESState) (id : String) : Option ESDoc :=
  if es.connected = false then none
  else assocGet es.store id

/-- Number of stored documents under a given id. -/
def countId (store : List (String × ESDoc)) (id : String) : Nat :=
  (store.filter (fun kv => kv.1 = id)).length

lemma assocGet_mapReplace (st : List (String × ESDoc)) (id : String) (doc : ESDoc)
    (h : st.any (fun kv => kv.1 = id) = true) :
    assocGet (st.map (fun kv => if kv.1 = id then (id, doc) else kv)) id = some doc := by
  induction st with
  | nil => simp at h
  | cons kv t ih =>
    simp only [List.any_cons, Bool.or_eq_true, decide_eq_true_eq] at h
    simp only [List.map_cons]
    by_cases hk : kv.1 = id
    · rw [if_pos hk]
      simp [assocGet]
    · rw [if_neg hk]
      have h' : t.any (fun kv => kv.1 = id) = true := by
        rcases h with h | h
        · exact absurd h hk
        · exact h
      cases kv with
      | mk a b =>
        simp only [assocGet, if_neg hk]
        exact ih h'

lemma assocGet_append_single (st : List (String × ESDoc)) (id : String) (doc : ESDoc)
    (h : st.any (fun kv => kv.1 = id) = false) :
    assocGet (st ++ [(id, doc)]) id = some doc := by
  induction st with
  | nil => simp [assocGet]
  | cons kv t ih =>
    simp only [List.any_cons, Bool.or_eq_false_iff, decide_eq_false_iff_not] at h
    cases kv with
    | mk a b =>
      simp only [List.cons_append, assocGet, if_neg h.1]
      exact ih (by simp [h.2])

lemma assocGet_upsert (st : List (String × ESDoc)) (id : String) (doc : ESDoc) :
    assocGet (upsert st id doc) id = some doc := by
  unfold upsert
  split
  · next h => exact assocGet_mapReplace st id doc h
  · next h =>
    refine assocGet_append_single st id doc ?_
    simp only [Bool.not_eq_true] at h
    exact h

lemma countId_mapReplace (st : List (String × ESDoc)) (id : String) (doc : ESDoc) :
    countId (st.map (fun kv => if kv.1 = id then (id, doc) else kv)) id =
      countId st id := by
  induction st with
  | nil => rfl
  | cons kv t ih =>
    simp only [List.map_cons]
    by_cases hk : kv.1 = id
    · rw [if_pos hk]
      simpa [countId, List.filter, hk] using ih
    · rw [if_neg hk]
      simpa [countId, List.filter, hk] using ih

lemma countId_pos_of_any (st : List (String × ESDoc)) (id : String)
    (h : st.any (fun kv => kv.1 = id) = true) : 0 < countId st id := by
  induction st with
  | nil => simp at h
  | cons kv t ih =>
    simp only [List.any_cons, Bool.or_eq_true, decide_eq_true_eq] at h
    by_cases hk : kv.1 = id
    · simp [countId, List.filter, hk]
    · have h' : t.any (fun kv => kv.1 = id) = true := by
        rcases h with h | h
        · exact absurd h hk
        · exact h
      simpa [countId, List.filter, hk] using ih h'

lemma countId_zero_of_not_any (st : List (String × ESDoc)) (id : String)
    (h : st.any (fun kv => kv.1 = id) = false) : countId st id = 0 := by
  induction st with
  | nil => rfl
  | cons kv t ih =>
    simp only [List.any_cons, Bool.or_eq_false_iff, decide_eq_false_iff_not] at h
    simpa [countId, List.filter, h.1] using ih (by simp [h.2])

lemma countId_append_single (st : List (String × ESDoc)) (id : String) (doc : ESDoc) :
    countId (st ++ [(id, doc)]) id = countId st id + 1 := by
  simp [countId, List.filter_append, List.filter]

lemma countId_upsert (st : List (String × ESDoc)) (id : String) (doc : ESDoc)
    (h : countId st id ≤ 1) : countId (upsert st id doc) id = 1 := by
  unfold upsert
  split
  · next hany =>
    rw [countId_mapReplace]
    have := countId_pos_of_any st id hany
    omega
  · next hany =>
    rw [countId_append_single, countId_zero_of_not_any st id
      (by simp only [Bool.not_eq_true] at hany; exact hany)]

/-! ### Claim C9 -/

/-- **C9.** The document id is a deterministic function of the source path
alone, so indexing the same path twice stores exactly one document under the
derived id (overwrite, not duplicate); and `index_document` followed by
`get_document_by_id` on the derived id returns a document whose `content`
equals the extracted text supplied. -/
theorem index_roundtrip_and_id (md5hex : String → String) :
    (∀ p q : String, p = q →
       generate_document_id md5hex p = generate_document_id md5hex q) ∧
    (∀ (es : ESState) (d : DocData), es.connected = true →
       (index_document md5hex es d).1.success = true ∧
       (index_document md5hex es d).1.docId =
         some (generate_document_id md5hex d.file_path) ∧
       ∃ doc, get_document_by_id (index_document md5hex es d).2
           (generate_document_id md5hex d.file_path) = some doc ∧
         doc.content = d.text) ∧
    (∀ (es : ESState) (d1 d2 : DocData) (p : String),
       es.connected = true → d1.file_path = p → d2.file_path = p →
       countId es.store (generate_document_id md5hex p) ≤ 1 →
       countId (index_document md5hex
           (index_document md5hex es d1).2 d2).2.store
         (generate_document_id md5hex p) = 1) := by
  refine ⟨fun p q h => by rw [h], ?_, ?_⟩
  · intro es d hc
    unfold index_document
    rw [if_neg (by simp [hc])]
    refine ⟨rfl, rfl, ?_⟩
    refine ⟨⟨generate_document_id md5hex d.file_path, d.filename, d.file_path,
      d.text, extract_title d.text, d.category⟩, ?_, rfl⟩
    unfold get_document_by_id
    rw [if_neg (by simp [hc])]
    exact assocGet_upsert es.store _ _
  · intro es d1 d2 p hc h1 h2 hcount
    unfold index_document
    rw [if_neg (by simp [hc])]
    simp only
    rw [if_neg (by simp [hc])]
    simp only [generate_document_id, h1, h2]
    rw [countId_upsert _ _ _ (by
      rw [countId_upsert _ _ _ (by simpa [generate_document_id, h1] using hcount)])]

/-- Witness for C9: the theorem at a stand-in digest function, a connected
empty node and concrete documents. -/
theorem index_roundtrip_and_id_witness :
    ((index_document (fun x => x) ⟨true, []⟩
        ⟨"f.pdf", "/in/f.pdf", "CONTENT", "other"⟩).1.success = true ∧
     (index_document (fun x => x) ⟨true, []⟩
        ⟨"f.pdf", "/in/f.pdf", "CONTENT", "other"⟩).1.docId =
       some (generate_document_id (fun x => x) "/in/f.pdf") ∧
     ∃ doc, get_document_by_id (index_document (fun x => x) ⟨true, []⟩
          ⟨"f.pdf", "/in/f.pdf", "CONTENT", "other"⟩).2
         (generate_document_id (fun x => x) "/in/f.pdf") = some doc ∧
       doc.content = "CONTENT") ∧
    countId (index_document (fun x => x)
        (index_document (fun x => x) ⟨true, []⟩
          ⟨"f.pdf", "/in/f.pdf", "CONTENT", "other"⟩).2
        ⟨"f.pdf", "/in/f.pdf", "CONTENT v2", "other"⟩).2.store
      (generate_document_id (fun x => x) "/in/f.pdf") = 1 :=
  ⟨(index_roundtrip_and_id (fun x => x)).2.1 ⟨true, []⟩
     ⟨"f.pdf", "/in/f.pdf", "CONTENT", "other"⟩ rfl,
   (index_roundtrip_and_id (fun x => x)).2.2 ⟨true, []⟩
     ⟨"f.pdf", "/in/f.pdf", "CONTENT", "other"⟩
     ⟨"f.pdf", "/in/f.pdf", "CONTENT v2", "other"⟩ "/in/f.pdf" rfl rfl rfl
     (by decide)⟩

end Pipeline
